import Mathlib

/-!
Verification of update_contributions.py (oss-portfolio).

Shallow embedding: the script fetches GitHub contributions
(merged PRs, created issues, reviewed PRs, triaged issues),
groups them by calendar quarter, and renders Markdown files.
Network responses are modelled as an explicit trace of page
responses consumed in order; dictionaries as association lists
preserving insertion order; Python exceptions as Except.
-/

namespace OSSPortfolio

/-- Raw search-result item as returned by the GitHub search endpoint
(the fields the script reads: title, html_url, repository_url, body,
number, created_at, updated_at). The body can be JSON null. -/
structure RawItem where
  title : String
  html_url : String
  repository_url : String
  body : Option String
  number : Nat
  created_at : String
  updated_at : String
deriving DecidableEq

/-- One network response inside get_all_pages: either a successful
page (its items plus whether the Link header holds a next relation)
or an HTTP error status raised by raise_for_status. -/
inductive PageResp where
  | ok (items : List RawItem) (hasNext : Bool)
  | err (status : Nat)
deriving DecidableEq

/-- Observable log of a get_all_pages run: the page number sent with
each request, and the durations of the sleeps performed. -/
structure FetchLog where
  pages : List Nat
  sleeps : List Nat
deriving DecidableEq

/-- Embedding of get_all_pages (src/update_contributions.py lines 41-65).
The loop consumes the response trace in order; acc is the results
accumulator, page the current page number. On a successful page the
items are appended and the loop continues with page+1 only when a
next link is present; on HTTP 403 it sleeps 60 seconds and retries
the same page; any other HTTP error is re-raised (Except.error).
Returns none when the trace is exhausted before the loop decides. -/
def get_all_pages : List PageResp → List RawItem → Nat →
    Option (FetchLog × Except Nat (List RawItem))
  | [], _, _ => none
  | PageResp.ok items hasNext :: rest, acc, page =>
    if hasNext then
      (get_all_pages rest (acc ++ items) (page + 1)).map
        (fun r => (FetchLog.mk (page :: r.1.pages) r.1.sleeps, r.2))
    else
      some (FetchLog.mk [page] [], Except.ok (acc ++ items))
  | PageResp.err s :: rest, acc, page =>
    if s = 403 then
      (get_all_pages rest acc page).map
        (fun r => (FetchLog.mk (page :: r.1.pages) (60 :: r.1.sleeps), r.2))
    else
      some (FetchLog.mk [page] [], Except.error s)

/-- A run of successful pages that all declare a next relation. -/
def okPages (ps : List (List RawItem)) : List PageResp :=
  ps.map (fun its => PageResp.ok its true)

/-- Python expression (body or default) on a string-or-null value:
None and the empty string are falsy, any other string is returned
verbatim (src lines 81, 94, 105, 115). -/
def pyStrOr (b : Option String) (d : String) : String :=
  match b with
  | none => d
  | some s => if s = "" then d else s

/-- Path component of urlparse for the absolute URLs the script
handles (scheme://netloc/path, no query or fragment in GitHub
repository_url values): everything from the slash after the network
location onward; a URL without a scheme separator is all path. -/
def urlPath (u : String) : String :=
  match u.splitOn "://" with
  | [_, hostPath] =>
    match hostPath.splitOn "/" with
    | _ :: seg :: segs => "/" ++ String.intercalate "/" (seg :: segs)
    | _ => ""
  | _ => u

/-- Python path.split("/")[-1]: last slash-separated segment. -/
def lastPathSegment (u : String) : String :=
  ((urlPath u).splitOn "/").getLastD ""

/-- Normalized contribution record: the dict the script builds for
each item. Exactly one of the four timestamp keys is present per
category; an absent key and a key holding JSON null both read back
as None through dict.get, so both are none here. -/
structure Item where
  title : String
  url : String
  repo : String
  description : String
  merged_at : Option String := none
  created_at : Option String := none
  reviewed_at : Option String := none
  triaged_at : Option String := none
deriving DecidableEq

/-- Response of the per-item detail lookup for a merged PR
(GET /repos/owner/repo/pulls/number): HTTP status plus the JSON
fields the script reads on success. -/
structure PRDetail where
  status : Nat
  title : String
  html_url : String
  body : Option String
  merged_at : Option String
deriving DecidableEq

/-- Record built for a merged PR from its detail response
(src lines 77-83); repo is the last path segment of the
search-result repository_url. -/
def mkPullRequestItem (pr : RawItem) (d : PRDetail) : Item :=
  { title := d.title
    url := d.html_url
    repo := lastPathSegment pr.repository_url
    description := pyStrOr d.body "No description provided."
    merged_at := d.merged_at }

/-- Record built for a created issue (src lines 90-96). -/
def mkIssueItem (raw : RawItem) : Item :=
  { title := raw.title
    url := raw.html_url
    repo := lastPathSegment raw.repository_url
    description := pyStrOr raw.body "No description provided."
    created_at := some raw.created_at }

/-- Record built for a reviewed PR (src lines 101-107). -/
def mkReviewedPrItem (raw : RawItem) : Item :=
  { title := raw.title
    url := raw.html_url
    repo := lastPathSegment raw.repository_url
    description := pyStrOr raw.body "No description provided."
    reviewed_at := some raw.updated_at }

/-- Record built for a triaged issue (src lines 111-117). -/
def mkTriagedIssueItem (raw : RawItem) : Item :=
  { title := raw.title
    url := raw.html_url
    repo := lastPathSegment raw.repository_url
    description := pyStrOr raw.body "No description provided."
    triaged_at := some raw.updated_at }

/-- Merged-PR collection loop (src lines 69-85): each search item is
paired with the response of its detail lookup; a 200 response yields
a normalized record, anything else only a printed diagnostic, and the
loop continues with the remaining items either way. Returns the
records and the diagnostics in order. -/
def collectMergedPRs : List (RawItem × PRDetail) → List Item × List String
  | [] => ([], [])
  | (pr, det) :: rest =>
    let r := collectMergedPRs rest
    if det.status = 200 then
      (mkPullRequestItem pr det :: r.1, r.2)
    else
      (r.1, ("Could not fetch details for " ++ pr.html_url) :: r.2)

/-- Fields of the datetime value produced by
datetime.strptime(s, "%Y-%m-%dT%H:%M:%SZ"). -/
structure PDate where
  year : Nat
  month : Nat
  day : Nat
  hour : Nat
  minute : Nat
  second : Nat
deriving DecidableEq

/-- Numeric value of an ASCII digit, none for any other character. -/
def digitVal (c : Char) : Option Nat :=
  if c.isDigit then some (c.toNat - 48) else none

/-- Two-or-one digit numeric field of the strptime regex: a two-digit
reading is taken when its value satisfies ok2, else a one-digit
reading when it satisfies ok1 (for this format, with non-digit
literal separators, this matches the regex backtracking order). -/
def parse2or1 (ok2 ok1 : Nat → Bool) : List Char → Option (Nat × List Char)
  | c1 :: c2 :: rest =>
    match digitVal c1, digitVal c2 with
    | some d1, some d2 =>
      if ok2 (10 * d1 + d2) then some (10 * d1 + d2, rest)
      else if ok1 d1 then some (d1, c2 :: rest) else none
    | some d1, none => if ok1 d1 then some (d1, c2 :: rest) else none
    | none, _ => none
  | [c1] =>
    match digitVal c1 with
    | some d1 => if ok1 d1 then some (d1, []) else none
    | none => none
  | [] => none

/-- Four-digit year field of the strptime regex for %Y. -/
def parseYear4 : List Char → Option (Nat × List Char)
  | c1 :: c2 :: c3 :: c4 :: rest =>
    match digitVal c1, digitVal c2, digitVal c3, digitVal c4 with
    | some d1, some d2, some d3, some d4 =>
      some (1000 * d1 + 100 * d2 + 10 * d3 + d4, rest)
    | _, _, _, _ => none
  | _ => none

/-- A literal character of the format string. -/
def expectChar (c : Char) : List Char → Option (List Char)
  | c2 :: rest => if c2 = c then some rest else none
  | [] => none

/-- Gregorian leap-year rule used by datetime. -/
def isLeapYear (y : Nat) : Bool :=
  y % 4 == 0 && (y % 100 != 0 || y % 400 == 0)

/-- Days in a month as validated by the datetime constructor. -/
def daysInMonth (y m : Nat) : Nat :=
  if m = 2 then (if isLeapYear y then 29 else 28)
  else if m = 4 || m = 6 || m = 9 || m = 11 then 30
  else 31

/-- Embedding of datetime.strptime(s, "%Y-%m-%dT%H:%M:%SZ"): the
CPython field regexes (%Y four digits; %m 1-12; %d 1-31; %H 0-23;
%M 0-59; %S 0-61, each also accepting a single digit), the literal
separators, the whole string consumed, then the datetime constructor
checks (year at least MINYEAR, day within the month, second below
60). Returns none exactly when strptime (or the constructor) raises. -/
def parseTs (s : String) : Option PDate := do
  let (y, r1) ← parseYear4 s.data
  let r2 ← expectChar '-' r1
  let (mo, r3) ← parse2or1 (fun n => 1 ≤ n && n ≤ 12)
    (fun n => 1 ≤ n && n ≤ 9) r2
  let r4 ← expectChar '-' r3
  let (d, r5) ← parse2or1 (fun n => 1 ≤ n && n ≤ 31)
    (fun n => 1 ≤ n && n ≤ 9) r4
  let r6 ← expectChar 'T' r5
  let (h, r7) ← parse2or1 (fun n => n ≤ 23) (fun n => n ≤ 9) r6
  let r8 ← expectChar ':' r7
  let (mi, r9) ← parse2or1 (fun n => n ≤ 59) (fun n => n ≤ 9) r8
  let r10 ← expectChar ':' r9
  let (sec, r11) ← parse2or1 (fun n => n ≤ 61) (fun n => n ≤ 9) r10
  let r12 ← expectChar 'Z' r11
  if r12 = [] then
    if 1 ≤ y && d ≤ daysInMonth y mo && sec ≤ 59 then
      some (PDate.mk y mo d h mi sec)
    else none
  else none

/-- Quarter-bucket key computed at src lines 133-136:
year dash Q then (month - 1) integer-divided by 3, plus 1. -/
def quarterKey (year month : Nat) : String :=
  toString year ++ "-" ++ ("Q" ++ toString ((month - 1) / 3 + 1))

/-- The four categories, in the iteration (insertion) order of the
contributions dict. -/
inductive Cat where
  | pullRequests
  | issues
  | triagedIssues
  | reviewedPrs
deriving DecidableEq

/-- The contributions dict (and the per-bucket dict): one ordered
list of records per fixed category key. -/
structure Contributions where
  pullRequests : List Item
  issues : List Item
  triagedIssues : List Item
  reviewedPrs : List Item
deriving DecidableEq

/-- Fresh bucket value created at src lines 139-144. -/
def Contributions.empty : Contributions :=
  Contributions.mk [] [] [] []

/-- Category list lookup. -/
def Contributions.get (x : Contributions) : Cat → List Item
  | Cat.pullRequests => x.pullRequests
  | Cat.issues => x.issues
  | Cat.triagedIssues => x.triagedIssues
  | Cat.reviewedPrs => x.reviewedPrs

/-- Appending one record to a category list (list.append). -/
def Contributions.appendCat (x : Contributions) : Cat → Item → Contributions
  | Cat.pullRequests, it => { x with pullRequests := x.pullRequests ++ [it] }
  | Cat.issues, it => { x with issues := x.issues ++ [it] }
  | Cat.triagedIssues, it => { x with triagedIssues := x.triagedIssues ++ [it] }
  | Cat.reviewedPrs, it => { x with reviewedPrs := x.reviewedPrs ++ [it] }

/-- Python truthiness of the string-or-None values flowing through
the or-chain at src line 128: None and the empty string are falsy. -/
def truthyStr : Option String → Bool
  | none => false
  | some s => s != ""

/-- Python or on two string-or-None operands: the first when it is
truthy, otherwise the second. -/
def pyOrOpt (a b : Option String) : Option String :=
  if truthyStr a then a else b

/-- The date_str expression at src lines 128 and 183: the or-chain
over the four possible timestamp keys of a record. -/
def dateExpr (it : Item) : Option String :=
  pyOrOpt (pyOrOpt (pyOrOpt it.merged_at it.created_at) it.reviewed_at)
    it.triaged_at

/-- The grouped dict, an insertion-ordered association list from
quarter key to bucket. -/
def Buckets : Type :=
  List (String × Contributions)

/-- Bucket update at src lines 138-145: if the key is absent a fresh
bucket is inserted at the end (dict insertion order), then the record
is appended to the category list of that key. -/
def addItem : List (String × Contributions) → String → Cat → Item →
    List (String × Contributions)
  | [], key, c, it => [(key, Contributions.empty.appendCat c it)]
  | (k, v) :: rest, key, c, it =>
    if k = key then (k, v.appendCat c it) :: rest
    else (k, v) :: addItem rest key c it

/-- One iteration of the grouping loop body (src lines 127-145) for
a single record: a falsy date_str skips the record; a truthy one is
parsed by strptime, whose failure raises (Except.error) and aborts
grouping, and on success the record is appended to the bucket named
by its quarter key. -/
def groupStep (g : List (String × Contributions)) (c : Cat) (it : Item) :
    Except String (List (String × Contributions)) :=
  match dateExpr it with
  | none => Except.ok g
  | some s =>
    if s = "" then Except.ok g
    else
      match parseTs s with
      | none => Except.error "ValueError: time data does not match format"
      | some dt => Except.ok (addItem g (quarterKey dt.year dt.month) c it)

/-- The grouping loop over the records of one category. -/
def groupItems (c : Cat) : List Item → List (String × Contributions) →
    Except String (List (String × Contributions))
  | [], g => Except.ok g
  | it :: rest, g =>
    match groupStep g c it with
    | Except.error e => Except.error e
    | Except.ok g2 => groupItems c rest g2

/-- Embedding of group_contributions_by_quarter (src lines 121-146):
the categories are visited in dict insertion order, starting from an
empty grouped dict; an unhandled strptime error aborts the whole
grouping. -/
def group_contributions_by_quarter (x : Contributions) :
    Except String (List (String × Contributions)) :=
  (groupItems Cat.pullRequests x.pullRequests []).bind (fun g1 =>
  (groupItems Cat.issues x.issues g1).bind (fun g2 =>
  (groupItems Cat.triagedIssues x.triagedIssues g2).bind (fun g3 =>
  groupItems Cat.reviewedPrs x.reviewedPrs g3)))

/-- Multiset of the records stored under category c across all
buckets of the grouped dict. -/
def bucketsCat (g : List (String × Contributions)) (c : Cat) :
    Multiset Item :=
  (g.map (fun kv => ((kv.2.get c : List Item) : Multiset Item))).sum

/-- The has_data test at src line 161: some category list of the
bucket is non-empty (Python any over the four list values). -/
def hasData (x : Contributions) : Bool :=
  !x.pullRequests.isEmpty || !x.issues.isEmpty ||
    !x.triagedIssues.isEmpty || !x.reviewedPrs.isEmpty

/-- Description cell rendering at src lines 187-189: newlines are
replaced by spaces, then a string longer than 100 characters is cut
to its first 100 characters plus a three-character ellipsis. -/
def renderDescription (s : String) : String :=
  let d := s.data.map (fun c => if c = '\n' then ' ' else c)
  if 100 < d.length then
    String.mk (d.take 100 ++ ('.' :: '.' :: '.' :: []))
  else String.mk d

/-- Two-digit zero-padded decimal field of strftime. -/
def pad2 (n : Nat) : String :=
  if n < 10 then "0" ++ toString n else toString n

/-- Four-digit zero-padded year field of strftime. -/
def pad4 (n : Nat) : String :=
  if n < 10 then "000" ++ toString n
  else if n < 100 then "00" ++ toString n
  else if n < 1000 then "0" ++ toString n
  else toString n

/-- strftime("%Y-%m-%d") on the parsed date (src line 185). -/
def formatDate (dt : PDate) : String :=
  pad4 dt.year ++ "-" ++ pad2 dt.month ++ "-" ++ pad2 dt.day

/-- One table row (src lines 182-191): the date_str or-chain is
re-evaluated and re-parsed here with no guard, so a record with a
falsy or malformed date raises (TypeError or ValueError). -/
def renderRow (it : Item) : Except String String :=
  match dateExpr it with
  | none => Except.error "TypeError: strptime argument must be str"
  | some s =>
    match parseTs s with
    | none => Except.error "ValueError: time data does not match format"
    | some dt =>
      Except.ok ("| " ++ it.repo ++ " | [" ++ it.title ++ "](" ++
        it.url ++ ") | " ++ renderDescription it.description ++ " | " ++
        formatDate dt ++ " |\n")

/-- The rows of one table, concatenated in record order. -/
def renderRows : List Item → Except String String
  | [] => Except.ok ""
  | it :: rest =>
    match renderRow it with
    | Except.error e => Except.error e
    | Except.ok row =>
      match renderRows rest with
      | Except.error e => Except.error e
      | Except.ok rs => Except.ok (row ++ rs)

/-- One section of the document (src lines 174-192): the heading,
then either the placeholder line or the table header and rows. -/
def renderSection (title : String) (items : List Item) :
    Except String String :=
  if items.isEmpty then
    Except.ok ("## " ++ title ++ "\n\n" ++
      "No contributions found for this section.\n\n")
  else
    match renderRows items with
    | Except.error e => Except.error e
    | Except.ok rows =>
      Except.ok ("## " ++ title ++ "\n\n" ++
        "| Project Name | Link | Description | Date |\n" ++
        "|---|---|---|---|\n" ++ rows ++ "\n")

/-- Whole document for one bucket (src lines 166-192): title heading
then the four sections in the fixed dict order. -/
def renderBucket (quarter year : String) (d : Contributions) :
    Except String String :=
  match renderSection "Pull Requests" d.pullRequests with
  | Except.error e => Except.error e
  | Except.ok s1 =>
  match renderSection "Issues" d.issues with
  | Except.error e => Except.error e
  | Except.ok s2 =>
  match renderSection "Triaged Issues" d.triagedIssues with
  | Except.error e => Except.error e
  | Except.ok s3 =>
  match renderSection "Reviewed PRs" d.reviewedPrs with
  | Except.error e => Except.error e
  | Except.ok s4 =>
    Except.ok ("# Contributions - " ++ quarter ++ " " ++ year ++ "\n\n" ++
      s1 ++ s2 ++ s3 ++ s4)

/-- Helper for pySplit: cur accumulates the current field reversed. -/
def splitCharAux (sep : Char) : List Char → List Char → List String
  | [], cur => [String.mk cur.reverse]
  | c :: rest, cur =>
    if c = sep then String.mk cur.reverse :: splitCharAux sep rest []
    else splitCharAux sep rest (c :: cur)

/-- Python str.split with a one-character separator: the fields
between every occurrence of the separator, empty fields kept. -/
def pySplit (sep : Char) (s : String) : List String :=
  splitCharAux sep s.data []

/-- Embedding of write_markdown_files (src lines 148-196) as the list
of (path, full content) pairs written, in iteration order: the key is
unpacked as year dash quarter, an all-empty bucket is skipped, any
other bucket contributes exactly one file whose previous content on
disk is irrelevant (mode w truncates). -/
def write_markdown_files : List (String × Contributions) →
    Except String (List (String × String))
  | [] => Except.ok []
  | (key, data) :: rest =>
    match pySplit '-' key with
    | [year, quarter] =>
      if hasData data then
        match renderBucket quarter year data with
        | Except.error e => Except.error e
        | Except.ok content =>
          match write_markdown_files rest with
          | Except.error e => Except.error e
          | Except.ok files =>
            Except.ok (("contributions/" ++ year ++ "/" ++ quarter ++
              "-" ++ year ++ ".md", content) :: files)
      else write_markdown_files rest
    | _ => Except.error "ValueError: not enough values to unpack"

/-- A bucket entry is keyed by the quarter key of every record it
holds (each record parses and its quarter key names this bucket). -/
def KeyOk (kv : String × Contributions) : Prop :=
  ∀ c : Cat, ∀ it ∈ kv.2.get c, ∃ s dt, dateExpr it = some s ∧
    parseTs s = some dt ∧ kv.1 = quarterKey dt.year dt.month

/-- Sample record used in concrete checks: a created issue dated in
the second quarter of 2022. -/
def sampleIssueItem : Item :=
  { title := "Fix bug"
    url := "https://github.com/octo/repo/issues/1"
    repo := "repo"
    description := "d"
    created_at := some "2022-05-11T00:00:00Z" }

/-- Sample record with a present but malformed timestamp value. -/
def malformedItem : Item :=
  { title := "t"
    url := "u"
    repo := "r"
    description := "d"
    created_at := some "not-a-date" }

/-- Sample record with no timestamp value at all. -/
def datelessItem : Item :=
  { title := "t"
    url := "u"
    repo := "r"
    description := "d" }

@[simp]
lemma get_empty (c : Cat) : Contributions.empty.get c = [] := by
  cases c <;> rfl

@[simp]
lemma get_appendCat (x : Contributions) (c c2 : Cat) (it : Item) :
    (x.appendCat c it).get c2 =
      if c2 = c then x.get c2 ++ [it] else x.get c2 := by
  cases c <;> cases c2 <;>
    simp [Contributions.appendCat, Contributions.get]

lemma get_all_pages_ok_run (ps : List (List RawItem)) (last : List RawItem)
    (rest : List PageResp) (acc : List RawItem) (page : Nat) :
    get_all_pages (okPages ps ++ PageResp.ok last false :: rest) acc page =
      some (FetchLog.mk (List.range' page (ps.length + 1)) [],
        Except.ok (acc ++ (ps.flatten ++ last))) := by
  induction ps generalizing acc page with
  | nil => simp [okPages, get_all_pages, List.range']
  | cons hd tl ih =>
    have h := ih (acc ++ hd) (page + 1)
    simp only [okPages] at h ⊢
    simp [get_all_pages, h, List.range', List.append_assoc]

lemma get_all_pages_retry_run (k : Nat) (items : List RawItem)
    (rest : List PageResp) (acc : List RawItem) (page : Nat) :
    get_all_pages (List.replicate k (PageResp.err 403) ++
        PageResp.ok items false :: rest) acc page =
      some (FetchLog.mk (List.replicate (k + 1) page) (List.replicate k 60),
        Except.ok (acc ++ items)) := by
  induction k with
  | zero => simp [get_all_pages]
  | succ n ih => simp [List.replicate, get_all_pages, ih]

/-- C1: for a trace of successful pages, get_all_pages returns the
concatenation of the items of page 1, page 2, ... in order (so the
result size is the sum of the per-page item counts), requests exactly
pages 1..n, and stops right after the first response without a next
relation (any further responses are never consumed). -/
theorem fetch_pagination_concat (ps : List (List RawItem))
    (last : List RawItem) (rest : List PageResp) :
    get_all_pages (okPages ps ++ PageResp.ok last false :: rest) [] 1 =
      some (FetchLog.mk (List.range' 1 (ps.length + 1)) [],
        Except.ok (ps.flatten ++ last)) ∧
    (ps.flatten ++ last).length = (ps.map List.length).sum + last.length := by
  refine ⟨?_, ?_⟩
  · simpa using get_all_pages_ok_run ps last rest [] 1
  · simp [List.length_flatten]

/-- C2: a page request failing with HTTP 403 makes the fetcher sleep
60 seconds and retry the same page number, unboundedly, so any number
of 403s followed by a 200 for that page yields exactly that page
items with no page skipped or duplicated; any other HTTP error status
propagates immediately as the result of the run. -/
theorem fetch_retry_and_error :
    (∀ s rest acc page, s ≠ 403 →
      get_all_pages (PageResp.err s :: rest) acc page =
        some (FetchLog.mk [page] [], Except.error s)) ∧
    (∀ k items rest,
      get_all_pages (List.replicate k (PageResp.err 403) ++
          PageResp.ok items false :: rest) [] 1 =
        some (FetchLog.mk (List.replicate (k + 1) 1) (List.replicate k 60),
          Except.ok items)) ∧
    (∀ its1 k its2 rest,
      get_all_pages (PageResp.ok its1 true ::
          (List.replicate k (PageResp.err 403) ++
            PageResp.ok its2 false :: rest)) [] 1 =
        some (FetchLog.mk (1 :: List.replicate (k + 1) 2)
            (List.replicate k 60),
          Except.ok (its1 ++ its2))) := by
  refine ⟨?_, ?_, ?_⟩
  · intro s rest acc page hs
    simp [get_all_pages, hs]
  · intro k items rest
    simpa using get_all_pages_retry_run k items rest [] 1
  · intro its1 k its2 rest
    simp [get_all_pages, get_all_pages_retry_run]

/-- C2 witness: a non-403 error propagates at a concrete input. -/
theorem fetch_retry_and_error_witness :
    (500 : Nat) ≠ 403 ∧
    get_all_pages [PageResp.err 500] [] 1 =
      some (FetchLog.mk [1] [], Except.error 500) :=
  ⟨by decide, fetch_retry_and_error.1 500 [] [] 1 (by decide)⟩

/-- C7: every merged PR found by the search gets one detail lookup;
items whose lookup status is not 200 are skipped with a diagnostic
while collection of the remaining items continues, and items whose
lookup succeeds are appended as normalized records carrying the
detail title, canonical html_url, repo name, description and merge
timestamp. -/
theorem merged_pr_detail_lookup :
    (∀ prs : List (RawItem × PRDetail),
      (collectMergedPRs prs).1 = prs.filterMap (fun p =>
        if p.2.status = 200 then some (mkPullRequestItem p.1 p.2)
        else none)) ∧
    (∀ prs : List (RawItem × PRDetail),
      (collectMergedPRs prs).2 =
        (prs.filter (fun p => p.2.status ≠ 200)).map (fun p =>
          "Could not fetch details for " ++ p.1.html_url)) ∧
    (∀ pr d, (mkPullRequestItem pr d).title = d.title ∧
      (mkPullRequestItem pr d).url = d.html_url ∧
      (mkPullRequestItem pr d).repo = lastPathSegment pr.repository_url ∧
      (mkPullRequestItem pr d).description =
        pyStrOr d.body "No description provided." ∧
      (mkPullRequestItem pr d).merged_at = d.merged_at) := by
  refine ⟨?_, ?_, fun pr d => ⟨rfl, rfl, rfl, rfl, rfl⟩⟩
  · intro prs
    induction prs with
    | nil => rfl
    | cons hd tl ih =>
      by_cases h : hd.2.status = 200 <;> simp [collectMergedPRs, h, ih]
  · intro prs
    induction prs with
    | nil => rfl
    | cons hd tl ih =>
      by_cases h : hd.2.status = 200 <;> simp [collectMergedPRs, h, ih]

/-- C9: in every category, normalization substitutes the placeholder
description both when the raw body is null and when it is the empty
string, and keeps any other body verbatim. -/
theorem description_placeholder (raw : RawItem) (d : PRDetail) :
    ((d.body = none ∨ d.body = some "") →
      (mkPullRequestItem raw d).description = "No description provided.") ∧
    (∀ s, d.body = some s → s ≠ "" →
      (mkPullRequestItem raw d).description = s) ∧
    ((raw.body = none ∨ raw.body = some "") →
      (mkIssueItem raw).description = "No description provided." ∧
      (mkReviewedPrItem raw).description = "No description provided." ∧
      (mkTriagedIssueItem raw).description = "No description provided.") ∧
    (∀ s, raw.body = some s → s ≠ "" →
      (mkIssueItem raw).description = s ∧
      (mkReviewedPrItem raw).description = s ∧
      (mkTriagedIssueItem raw).description = s) := by
  refine ⟨?_, ?_, ?_, ?_⟩
  · rintro (h | h) <;>
      simp [mkPullRequestItem, pyStrOr, h]
  · intro s hs hne
    simp [mkPullRequestItem, pyStrOr, hs, hne]
  · rintro (h | h) <;>
      simp [mkIssueItem, mkReviewedPrItem, mkTriagedIssueItem, pyStrOr, h]
  · intro s hs hne
    simp [mkIssueItem, mkReviewedPrItem, mkTriagedIssueItem, pyStrOr,
      hs, hne]

lemma groupStep_skip (g : List (String × Contributions)) (c : Cat)
    (it : Item) (h : truthyStr (dateExpr it) = false) :
    groupStep g c it = Except.ok g := by
  cases hde : dateExpr it with
  | none => simp [groupStep, hde]
  | some s =>
    have hs : s = "" := by
      rw [hde] at h
      simpa [truthyStr] using h
    simp [groupStep, hde, hs]

lemma groupStep_error (g : List (String × Contributions)) (c : Cat)
    (it : Item) (s : String) (hde : dateExpr it = some s) (hs : s ≠ "")
    (hp : parseTs s = none) :
    groupStep g c it =
      Except.error "ValueError: time data does not match format" := by
  simp [groupStep, hde, hs, hp]

lemma groupStep_add (g : List (String × Contributions)) (c : Cat)
    (it : Item) (s : String) (dt : PDate) (hde : dateExpr it = some s)
    (hs : s ≠ "") (hp : parseTs s = some dt) :
    groupStep g c it =
      Except.ok (addItem g (quarterKey dt.year dt.month) c it) := by
  simp [groupStep, hde, hs, hp]

lemma groupStep_ok_cases (g g2 : List (String × Contributions)) (c : Cat)
    (it : Item) (h : groupStep g c it = Except.ok g2) :
    (truthyStr (dateExpr it) = false ∧ g2 = g) ∨
    (∃ s dt, dateExpr it = some s ∧ s ≠ "" ∧ parseTs s = some dt ∧
      g2 = addItem g (quarterKey dt.year dt.month) c it) := by
  cases hde : dateExpr it with
  | none =>
    left
    have htr : truthyStr (dateExpr it) = false := by simp [truthyStr, hde]
    have h2 := (groupStep_skip g c it htr).symm.trans h
    exact ⟨by simp [truthyStr], (Except.ok.inj h2).symm⟩
  | some s =>
    by_cases hs : s = ""
    · left
      have htr : truthyStr (dateExpr it) = false := by
        simp [truthyStr, hde, hs]
      have h2 := (groupStep_skip g c it htr).symm.trans h
      exact ⟨by simp [truthyStr, hs], (Except.ok.inj h2).symm⟩
    · right
      cases hp : parseTs s with
      | none =>
        have h2 := (groupStep_error g c it s hde hs hp).symm.trans h
        exact absurd h2 (by simp)
      | some dt =>
        have h2 := (groupStep_add g c it s dt hde hs hp).symm.trans h
        exact ⟨s, dt, rfl, hs, hp, (Except.ok.inj h2).symm⟩

lemma groupItems_preserves (P : List (String × Contributions) → Prop)
    (hstep : ∀ g c it g2, groupStep g c it = Except.ok g2 → P g → P g2)
    (c : Cat) (items : List Item) :
    ∀ g g2, groupItems c items g = Except.ok g2 → P g → P g2 := by
  induction items with
  | nil =>
    intro g g2 h hp
    simp [groupItems] at h
    rwa [← h]
  | cons it rest ih =>
    intro g g2 h hp
    cases hs : groupStep g c it with
    | error e => simp [groupItems, hs] at h
    | ok g1 =>
      simp only [groupItems, hs] at h
      exact ih g1 g2 h (hstep g c it g1 hs hp)

lemma except_bind_ok {α β ε : Type} (a : α) (f : α → Except ε β) :
    (Except.ok a).bind f = f a := rfl

lemma except_bind_error {α β ε : Type} (e : ε) (f : α → Except ε β) :
    (Except.error e : Except ε α).bind f = Except.error e := rfl

lemma group_stages (x : Contributions) (g : List (String × Contributions))
    (h : group_contributions_by_quarter x = Except.ok g) :
    ∃ g1 g2 g3,
      groupItems Cat.pullRequests x.pullRequests [] = Except.ok g1 ∧
      groupItems Cat.issues x.issues g1 = Except.ok g2 ∧
      groupItems Cat.triagedIssues x.triagedIssues g2 = Except.ok g3 ∧
      groupItems Cat.reviewedPrs x.reviewedPrs g3 = Except.ok g := by
  unfold group_contributions_by_quarter at h
  cases h1 : groupItems Cat.pullRequests x.pullRequests [] with
  | error e => rw [h1, except_bind_error] at h; exact absurd h (by simp)
  | ok g1 =>
    rw [h1, except_bind_ok] at h
    cases h2 : groupItems Cat.issues x.issues g1 with
    | error e => rw [h2, except_bind_error] at h; exact absurd h (by simp)
    | ok g2 =>
      rw [h2, except_bind_ok] at h
      cases h3 : groupItems Cat.triagedIssues x.triagedIssues g2 with
      | error e => rw [h3, except_bind_error] at h; exact absurd h (by simp)
      | ok g3 =>
        rw [h3, except_bind_ok] at h
        exact ⟨g1, g2, g3, rfl, h2, h3, h⟩

lemma append_singleton_isEmpty (l : List Item) (it : Item) :
    (l ++ [it]).isEmpty = false := by
  cases l <;> rfl

lemma hasData_appendCat (v : Contributions) (c : Cat) (it : Item) :
    hasData (v.appendCat c it) = true := by
  cases c <;>
    simp [hasData, Contributions.appendCat, append_singleton_isEmpty]

lemma addItem_hasData (g : List (String × Contributions)) (key : String)
    (c : Cat) (it : Item) (h : ∀ kv ∈ g, hasData kv.2 = true) :
    ∀ kv ∈ addItem g key c it, hasData kv.2 = true := by
  induction g with
  | nil =>
    intro kv hkv
    simp [addItem] at hkv
    rw [hkv]
    exact hasData_appendCat Contributions.empty c it
  | cons hd rest ih =>
    obtain ⟨k, v⟩ := hd
    intro kv hkv
    by_cases hk : k = key
    · simp only [addItem, if_pos hk] at hkv
      rcases List.mem_cons.mp hkv with h1 | h1
      · rw [h1]
        exact hasData_appendCat v c it
      · exact h kv (List.mem_cons_of_mem _ h1)
    · simp only [addItem, if_neg hk] at hkv
      rcases List.mem_cons.mp hkv with h1 | h1
      · exact h kv (h1 ▸ List.mem_cons_self _ _)
      · exact ih (fun kv2 hkv2 => h kv2 (List.mem_cons_of_mem _ hkv2))
          kv h1

/-- C9 witness: concrete null body, empty body and nonempty body. -/
theorem description_placeholder_witness :
    ((mkPullRequestItem (RawItem.mk "t" "u" "r" (some "") 1 "c" "d")
        (PRDetail.mk 200 "t2" "u2" none (some "m"))).description =
      "No description provided.") ∧
    ((mkIssueItem (RawItem.mk "t" "u" "r" (some "") 1 "c" "d")).description =
        "No description provided." ∧
      (mkReviewedPrItem
        (RawItem.mk "t" "u" "r" (some "") 1 "c" "d")).description =
        "No description provided." ∧
      (mkTriagedIssueItem
        (RawItem.mk "t" "u" "r" (some "") 1 "c" "d")).description =
        "No description provided.") ∧
    ((mkIssueItem (RawItem.mk "t" "u" "r" (some "hi") 1 "c" "d")).description =
        "hi" ∧
      (mkReviewedPrItem
        (RawItem.mk "t" "u" "r" (some "hi") 1 "c" "d")).description = "hi" ∧
      (mkTriagedIssueItem
        (RawItem.mk "t" "u" "r" (some "hi") 1 "c" "d")).description = "hi") :=
  ⟨(description_placeholder (RawItem.mk "t" "u" "r" (some "") 1 "c" "d")
      (PRDetail.mk 200 "t2" "u2" none (some "m"))).1 (Or.inl rfl),
    (description_placeholder (RawItem.mk "t" "u" "r" (some "") 1 "c" "d")
      (PRDetail.mk 200 "t2" "u2" none (some "m"))).2.2.1 (Or.inr rfl),
    (description_placeholder (RawItem.mk "t" "u" "r" (some "hi") 1 "c" "d")
      (PRDetail.mk 200 "t2" "u2" none (some "m"))).2.2.2 "hi" rfl
      (by decide)⟩

/-- C3 counterexample: a record whose present timestamp value is
malformed is not silently dropped: grouping raises the strptime
ValueError, so the run aborts instead of returning a grouping. -/
theorem grouping_malformed_counterexample :
    group_contributions_by_quarter
      (Contributions.mk [] [malformedItem] [] []) =
      Except.error "ValueError: time data does not match format" := rfl

/-- C3 amended: a record whose timestamp expression is falsy (absent
or empty) is silently dropped and grouping continues; a record with a
present malformed timestamp raises ValueError, which propagates and
aborts the grouping run; a record with a well-formed timestamp is
assigned to its quarter bucket. -/
theorem grouping_timestamp_handling :
    (∀ g c it, truthyStr (dateExpr it) = false →
      groupStep g c it = Except.ok g) ∧
    (∀ g c it s, dateExpr it = some s → s ≠ "" → parseTs s = none →
      groupStep g c it =
        Except.error "ValueError: time data does not match format") ∧
    (∀ g c it s dt, dateExpr it = some s → s ≠ "" → parseTs s = some dt →
      groupStep g c it =
        Except.ok (addItem g (quarterKey dt.year dt.month) c it)) ∧
    (∀ c it rest g e, groupStep g c it = Except.error e →
      groupItems c (it :: rest) g = Except.error e) := by
  refine ⟨groupStep_skip, groupStep_error, groupStep_add, ?_⟩
  intro c it rest g e hstep
  simp [groupItems, hstep]

/-- C3 witness: a dateless record is dropped, a malformed one aborts,
a well-formed one is bucketed. -/
theorem grouping_timestamp_handling_witness :
    (groupStep [] Cat.issues datelessItem = Except.ok []) ∧
    (groupStep [] Cat.issues malformedItem =
      Except.error "ValueError: time data does not match format") ∧
    (groupStep [] Cat.issues sampleIssueItem =
      Except.ok (addItem [] (quarterKey 2022 5) Cat.issues
        sampleIssueItem)) :=
  ⟨grouping_timestamp_handling.1 [] Cat.issues datelessItem rfl,
    grouping_timestamp_handling.2.1 [] Cat.issues malformedItem
      "not-a-date" rfl (by decide) rfl,
    grouping_timestamp_handling.2.2.1 [] Cat.issues sampleIssueItem
      "2022-05-11T00:00:00Z" (PDate.mk 2022 5 11 0 0 0) rfl
      (by decide) rfl⟩

/-- C5: a record with a parseable timestamp is bucketed under the key
year dash Qn with n = ((month - 1) div 3) + 1 taken from the parsed
timestamp; concretely 2022-04-15T00:00:00Z gives 2022-Q2,
2022-01-01T00:00:00Z gives 2022-Q1 and 2022-12-31T23:59:59Z gives
2022-Q4. -/
theorem quarter_key_assignment :
    (∀ g c it s dt, dateExpr it = some s → s ≠ "" → parseTs s = some dt →
      groupStep g c it = Except.ok (addItem g
        (toString dt.year ++ "-" ++
          ("Q" ++ toString ((dt.month - 1) / 3 + 1))) c it)) ∧
    ((parseTs "2022-04-15T00:00:00Z").map
      (fun dt => quarterKey dt.year dt.month) = some "2022-Q2") ∧
    ((parseTs "2022-01-01T00:00:00Z").map
      (fun dt => quarterKey dt.year dt.month) = some "2022-Q1") ∧
    ((parseTs "2022-12-31T23:59:59Z").map
      (fun dt => quarterKey dt.year dt.month) = some "2022-Q4") := by
  refine ⟨?_, rfl, rfl, rfl⟩
  intro g c it s dt hde hs hp
  exact groupStep_add g c it s dt hde hs hp

/-- C5 witness: the general bucketing rule applied to a concrete
record dated 2022-05-11. -/
theorem quarter_key_assignment_witness :
    groupStep [] Cat.issues sampleIssueItem = Except.ok (addItem []
      (toString 2022 ++ "-" ++ ("Q" ++ toString ((5 - 1) / 3 + 1)))
      Cat.issues sampleIssueItem) :=
  quarter_key_assignment.1 [] Cat.issues sampleIssueItem
    "2022-05-11T00:00:00Z" (PDate.mk 2022 5 11 0 0 0) rfl (by decide) rfl

/-- C8: every bucket produced by grouping passes the renderer
has_data test, because a bucket is created only at the moment a
record is appended to it; hence the skip-and-report branch for an
all-empty quarter can never fire on grouping output. -/
theorem grouped_buckets_nonempty (x : Contributions)
    (g : List (String × Contributions))
    (h : group_contributions_by_quarter x = Except.ok g) :
    ∀ kv ∈ g, hasData kv.2 = true := by
  obtain ⟨g1, g2, g3, h1, h2, h3, h4⟩ := group_stages x g h
  have hstep : ∀ gg c it gg2, groupStep gg c it = Except.ok gg2 →
      (∀ kv ∈ gg, hasData kv.2 = true) →
      (∀ kv ∈ gg2, hasData kv.2 = true) := by
    intro gg c it gg2 hs hp
    rcases groupStep_ok_cases gg gg2 c it hs with ⟨_, rfl⟩ |
      ⟨s, dt, _, _, _, rfl⟩
    · exact hp
    · exact addItem_hasData gg _ c it hp
  have p0 : ∀ kv ∈ ([] : List (String × Contributions)),
      hasData kv.2 = true := by simp
  exact groupItems_preserves _ hstep Cat.reviewedPrs x.reviewedPrs g3 g h4
    (groupItems_preserves _ hstep Cat.triagedIssues x.triagedIssues g2 g3 h3
      (groupItems_preserves _ hstep Cat.issues x.issues g1 g2 h2
        (groupItems_preserves _ hstep Cat.pullRequests x.pullRequests
          [] g1 h1 p0)))

/-- C8 witness: grouping a single issue yields one bucket that passes
the has_data test. -/
theorem grouped_buckets_nonempty_witness :
    hasData (Contributions.mk [] [sampleIssueItem] [] []) = true :=
  grouped_buckets_nonempty (Contributions.mk [] [sampleIssueItem] [] [])
    [("2022-Q2", Contributions.mk [] [sampleIssueItem] [] [])] rfl
    ("2022-Q2", Contributions.mk [] [sampleIssueItem] [] []) (by simp)

lemma bucketsCat_nil (c : Cat) : bucketsCat [] c = 0 := rfl

lemma bucketsCat_cons (kv : String × Contributions)
    (g : List (String × Contributions)) (c : Cat) :
    bucketsCat (kv :: g) c =
      (kv.2.get c : Multiset Item) + bucketsCat g c := by
  simp [bucketsCat]

lemma bucketsCat_addItem (g : List (String × Contributions)) (key : String)
    (c c2 : Cat) (it : Item) :
    bucketsCat (addItem g key c it) c2 =
      bucketsCat g c2 + (if c2 = c then ({it} : Multiset Item) else 0) := by
  induction g with
  | nil =>
    by_cases hc : c2 = c <;>
      simp [addItem, bucketsCat, hc]
  | cons hd rest ih =>
    obtain ⟨k, v⟩ := hd
    by_cases hk : k = key
    · by_cases hc : c2 = c <;>
        (simp [addItem, hk, bucketsCat_cons, hc, ← Multiset.coe_add]; try abel)
    · simp [addItem, hk, bucketsCat_cons, ih, add_assoc]

lemma bucketsCat_groupItems (c : Cat) (items : List Item) :
    ∀ g g2, groupItems c items g = Except.ok g2 → ∀ c2,
      bucketsCat g2 c2 = bucketsCat g c2 +
        (if c2 = c then
          ((items.filter (fun it => truthyStr (dateExpr it)) :
            List Item) : Multiset Item)
        else 0) := by
  induction items with
  | nil =>
    intro g g2 h c2
    simp [groupItems] at h
    by_cases hc : c2 = c <;> simp [← h, hc]
  | cons it rest ih =>
    intro g g2 h c2
    cases hs : groupStep g c it with
    | error e => simp [groupItems, hs] at h
    | ok g1 =>
      simp only [groupItems, hs] at h
      have hrest := ih g1 g2 h c2
      rcases groupStep_ok_cases g g1 c it hs with ⟨htr, rfl⟩ |
        ⟨s, dt, hde, hsne, hp, rfl⟩
      · rw [hrest, List.filter_cons_of_neg]
        simp [htr]
      · have htr : truthyStr (dateExpr it) = true := by
          simp [truthyStr, hde, hsne]
        rw [hrest, bucketsCat_addItem, List.filter_cons_of_pos (by simp [htr])]
        by_cases hc : c2 = c <;>
          (simp [hc, ← Multiset.cons_coe, ← Multiset.singleton_add]; try abel)

lemma mem_keys_addItem (g : List (String × Contributions)) (key : String)
    (c : Cat) (it : Item) (x : String)
    (hx : x ∈ (addItem g key c it).map Prod.fst) :
    x ∈ g.map Prod.fst ∨ x = key := by
  induction g with
  | nil =>
    simp [addItem] at hx
    exact Or.inr hx
  | cons hd rest ih =>
    obtain ⟨k, v⟩ := hd
    by_cases hk : k = key
    · simp only [addItem, if_pos hk, List.map_cons, List.mem_cons] at hx
      rcases hx with h | h
      · exact Or.inl (by simp [h])
      · exact Or.inl (by simp [h])
    · simp only [addItem, if_neg hk, List.map_cons, List.mem_cons] at hx
      rcases hx with h | h
      · exact Or.inl (by simp [h])
      · rcases ih h with h2 | h2
        · exact Or.inl (by simp [h2])
        · exact Or.inr h2

lemma nodup_keys_addItem (g : List (String × Contributions)) (key : String)
    (c : Cat) (it : Item) (h : (g.map Prod.fst).Nodup) :
    ((addItem g key c it).map Prod.fst).Nodup := by
  induction g with
  | nil => simp [addItem]
  | cons hd rest ih =>
    obtain ⟨k, v⟩ := hd
    simp only [List.map_cons, List.nodup_cons] at h
    obtain ⟨hk1, hk2⟩ := h
    by_cases hk : k = key
    · simp only [addItem, if_pos hk, List.map_cons, List.nodup_cons]
      exact ⟨hk1, hk2⟩
    · simp only [addItem, if_neg hk, List.map_cons, List.nodup_cons]
      refine ⟨?_, ih hk2⟩
      intro hmem
      rcases mem_keys_addItem rest key c it k hmem with h2 | h2
      · exact hk1 h2
      · exact hk h2

lemma keyOk_addItem (g : List (String × Contributions)) (key : String)
    (c : Cat) (it : Item) (s : String) (dt : PDate)
    (hde : dateExpr it = some s) (hp : parseTs s = some dt)
    (hkey : key = quarterKey dt.year dt.month)
    (h : ∀ kv ∈ g, KeyOk kv) :
    ∀ kv ∈ addItem g key c it, KeyOk kv := by
  induction g with
  | nil =>
    intro kv hkv
    simp [addItem] at hkv
    rw [hkv]
    intro c2 it2 hit2
    rw [get_appendCat] at hit2
    by_cases hc : c2 = c
    · rw [if_pos hc] at hit2
      simp at hit2
      rw [hit2]
      exact ⟨s, dt, hde, hp, hkey⟩
    · rw [if_neg hc] at hit2
      simp at hit2
  | cons hd rest ih =>
    obtain ⟨k, v⟩ := hd
    intro kv hkv
    by_cases hk : k = key
    · simp only [addItem, if_pos hk, List.mem_cons] at hkv
      rcases hkv with h1 | h1
      · rw [h1]
        intro c2 it2 hit2
        rw [get_appendCat] at hit2
        by_cases hc : c2 = c
        · rw [if_pos hc] at hit2
          rcases List.mem_append.mp hit2 with h2 | h2
          · exact h (k, v) (List.mem_cons_self _ _) c2 it2 h2
          · simp at h2
            rw [h2]
            exact ⟨s, dt, hde, hp, hk.trans hkey⟩
        · rw [if_neg hc] at hit2
          exact h (k, v) (List.mem_cons_self _ _) c2 it2 hit2
      · exact h kv (List.mem_cons_of_mem _ h1)
    · simp only [addItem, if_neg hk, List.mem_cons] at hkv
      rcases hkv with h1 | h1
      · rw [h1]
        exact h (k, v) (List.mem_cons_self _ _)
      · exact ih (fun kv2 hkv2 => h kv2 (List.mem_cons_of_mem _ hkv2)) kv h1

/-- C10: grouping preserves records and categories. For a grouping
run that succeeds, the multiset union over all buckets of each
category list equals the input records of that category whose
timestamp expression is truthy (none duplicated, moved across
categories, or invented); bucket keys are pairwise distinct; and
every record sits in the bucket named by the quarter key of its own
parsed timestamp, so each kept record occurrence lies in exactly one
bucket. -/
theorem grouping_preserves_records (x : Contributions)
    (g : List (String × Contributions))
    (h : group_contributions_by_quarter x = Except.ok g) :
    (∀ c, bucketsCat g c =
      (((x.get c).filter (fun it => truthyStr (dateExpr it)) :
        List Item) : Multiset Item)) ∧
    ((g.map Prod.fst).Nodup) ∧
    (∀ kv ∈ g, KeyOk kv) := by
  obtain ⟨g1, g2, g3, h1, h2, h3, h4⟩ := group_stages x g h
  refine ⟨?_, ?_, ?_⟩
  · intro c
    have e1 := bucketsCat_groupItems Cat.pullRequests x.pullRequests
      [] g1 h1 c
    have e2 := bucketsCat_groupItems Cat.issues x.issues g1 g2 h2 c
    have e3 := bucketsCat_groupItems Cat.triagedIssues x.triagedIssues
      g2 g3 h3 c
    have e4 := bucketsCat_groupItems Cat.reviewedPrs x.reviewedPrs
      g3 g h4 c
    rw [e4, e3, e2, e1]
    cases c <;> simp [Contributions.get, bucketsCat_nil]
  · have hstep : ∀ gg c it gg2, groupStep gg c it = Except.ok gg2 →
        (gg.map Prod.fst).Nodup → (gg2.map Prod.fst).Nodup := by
      intro gg c it gg2 hs hp
      rcases groupStep_ok_cases gg gg2 c it hs with ⟨_, rfl⟩ |
        ⟨s, dt, _, _, _, rfl⟩
      · exact hp
      · exact nodup_keys_addItem gg _ c it hp
    exact groupItems_preserves _ hstep Cat.reviewedPrs x.reviewedPrs
      g3 g h4
      (groupItems_preserves _ hstep Cat.triagedIssues x.triagedIssues
        g2 g3 h3
        (groupItems_preserves _ hstep Cat.issues x.issues g1 g2 h2
          (groupItems_preserves _ hstep Cat.pullRequests x.pullRequests
            [] g1 h1 (by simp))))
  · have hstep : ∀ gg c it gg2, groupStep gg c it = Except.ok gg2 →
        (∀ kv ∈ gg, KeyOk kv) → (∀ kv ∈ gg2, KeyOk kv) := by
      intro gg c it gg2 hs hp
      rcases groupStep_ok_cases gg gg2 c it hs with ⟨_, rfl⟩ |
        ⟨s, dt, hde, hsne, hpa, rfl⟩
      · exact hp
      · exact keyOk_addItem gg _ c it s dt hde hpa rfl hp
    exact groupItems_preserves _ hstep Cat.reviewedPrs x.reviewedPrs
      g3 g h4
      (groupItems_preserves _ hstep Cat.triagedIssues x.triagedIssues
        g2 g3 h3
        (groupItems_preserves _ hstep Cat.issues x.issues g1 g2 h2
          (groupItems_preserves _ hstep Cat.pullRequests x.pullRequests
            [] g1 h1 (by simp))))

/-- C10 witness: the category multiset equation evaluated on a
grouping of one concrete issue. -/
theorem grouping_preserves_records_witness :
    bucketsCat [("2022-Q2", Contributions.mk [] [sampleIssueItem] [] [])]
      Cat.issues =
      ((((Contributions.mk [] [sampleIssueItem] [] []).get
        Cat.issues).filter (fun it => truthyStr (dateExpr it)) :
        List Item) : Multiset Item) :=
  (grouping_preserves_records (Contributions.mk [] [sampleIssueItem] [] [])
    [("2022-Q2", Contributions.mk [] [sampleIssueItem] [] [])] rfl).1
    Cat.issues

/-- C4: the rendered description cell of a record whose raw
description is longer than 100 characters has exactly 103 characters
and ends with the three-character ellipsis marker; otherwise it is
the raw description with every newline replaced by a space (the
length test in the code runs after newline replacement, which
preserves length, so the two readings agree). -/
theorem description_truncation (s : String) :
    (100 < s.length →
      (renderDescription s).length = 103 ∧
      ∃ t, renderDescription s = t ++ "...") ∧
    (s.length ≤ 100 →
      renderDescription s =
        String.mk (s.data.map (fun c => if c = '\n' then ' ' else c))) := by
  have hmap : (s.data.map (fun c => if c = '\n' then ' ' else c)).length
      = s.length := by
    rw [List.length_map]
    rfl
  constructor
  · intro h
    have h2 : 100 <
        (s.data.map (fun c => if c = '\n' then ' ' else c)).length := by
      rw [hmap]; exact h
    constructor
    · simp only [renderDescription]
      rw [if_pos h2, String.length_mk, List.length_append,
        List.length_take]
      simp only [List.length_cons, List.length_nil]
      omega
    · refine ⟨String.mk ((s.data.map
        (fun c => if c = '\n' then ' ' else c)).take 100), ?_⟩
      simp only [renderDescription]
      rw [if_pos h2]
      rfl
  · intro h
    have h2 : ¬ 100 <
        (s.data.map (fun c => if c = '\n' then ' ' else c)).length := by
      rw [hmap]; omega
    simp only [renderDescription]
    rw [if_neg h2]

/-- C4 witness: a 101-character description is truncated to 103
characters ending in the marker; a short one keeps its text with the
newline turned into a space. -/
theorem description_truncation_witness :
    ((renderDescription (String.mk (List.replicate 101 'a'))).length =
        103 ∧
      ∃ t, renderDescription (String.mk (List.replicate 101 'a')) =
        t ++ "...") ∧
    renderDescription "ab\ncd" =
      String.mk ("ab\ncd".data.map (fun c => if c = '\n' then ' ' else c)) :=
  ⟨(description_truncation (String.mk (List.replicate 101 'a'))).1
      (by decide),
    (description_truncation "ab\ncd").2 (by decide)⟩

lemma renderRows_ok (items : List Item)
    (h : ∀ it ∈ items, ∃ r, renderRow it = Except.ok r) :
    ∃ rs, renderRows items = Except.ok rs := by
  induction items with
  | nil => exact ⟨"", rfl⟩
  | cons it rest ih =>
    obtain ⟨r, hr⟩ := h it (List.mem_cons_self _ _)
    obtain ⟨rs, hrs⟩ :=
      ih (fun it2 hit2 => h it2 (List.mem_cons_of_mem _ hit2))
    exact ⟨r ++ rs, by simp [renderRows, hr, hrs]⟩

lemma renderSection_ok (title : String) (items : List Item)
    (h : ∀ it ∈ items, ∃ r, renderRow it = Except.ok r) :
    ∃ t, renderSection title items = Except.ok ("## " ++ title ++ t) := by
  by_cases he : items.isEmpty
  · refine ⟨"\n\n" ++ "No contributions found for this section.\n\n", ?_⟩
    simp [renderSection, he, String.append_assoc]
  · obtain ⟨rs, hrs⟩ := renderRows_ok items h
    refine
      ⟨"\n\n| Project Name | Link | Description | Date |\n|---|---|---|---|\n"
        ++ (rs ++ "\n"), ?_⟩
    simp [renderSection, he, hrs, String.append_assoc]

/-- C6: a bucket whose four category lists are all empty produces no
output file; a bucket with at least one record in any category
produces exactly one file at contributions/year/quarter-year.md whose
content holds the four fixed section headings in the order pull
requests, issues, triaged issues, reviewed PRs; the file content is
produced wholesale, so whatever was at that path is overwritten. -/
theorem renderer_bucket_files (key year quarter : String)
    (d : Contributions) (hkey : pySplit '-' key = [year, quarter]) :
    (hasData d = false → write_markdown_files [(key, d)] = Except.ok []) ∧
    (hasData d = true →
      (∀ it ∈ d.pullRequests ++ d.issues ++ d.triagedIssues ++
        d.reviewedPrs, ∃ r, renderRow it = Except.ok r) →
      ∃ t1 t2 t3 t4,
        write_markdown_files [(key, d)] = Except.ok
          [("contributions/" ++ year ++ "/" ++ quarter ++ "-" ++ year ++
              ".md",
            "# Contributions - " ++ quarter ++ " " ++ year ++ "\n\n" ++
              ("## Pull Requests" ++ t1) ++ ("## Issues" ++ t2) ++
              ("## Triaged Issues" ++ t3) ++ ("## Reviewed PRs" ++ t4))]) := by
  constructor
  · intro h
    simp [write_markdown_files, hkey, h]
  · intro h hrows
    obtain ⟨t1, hs1⟩ := renderSection_ok "Pull Requests" d.pullRequests
      (fun it hit => hrows it (by simp [hit]))
    obtain ⟨t2, hs2⟩ := renderSection_ok "Issues" d.issues
      (fun it hit => hrows it (by simp [hit]))
    obtain ⟨t3, hs3⟩ := renderSection_ok "Triaged Issues" d.triagedIssues
      (fun it hit => hrows it (by simp [hit]))
    obtain ⟨t4, hs4⟩ := renderSection_ok "Reviewed PRs" d.reviewedPrs
      (fun it hit => hrows it (by simp [hit]))
    refine ⟨t1, t2, t3, t4, ?_⟩
    simp [write_markdown_files, hkey, h, renderBucket, hs1, hs2, hs3, hs4]

/-- C6 witness: an all-empty bucket writes nothing; a bucket with one
issue writes exactly one file with the four headings in order. -/
theorem renderer_bucket_files_witness :
    (write_markdown_files [("2022-Q1", Contributions.mk [] [] [] [])] =
      Except.ok []) ∧
    (∃ t1 t2 t3 t4,
      write_markdown_files [("2022-Q2",
          Contributions.mk [] [sampleIssueItem] [] [])] = Except.ok
        [("contributions/" ++ "2022" ++ "/" ++ "Q2" ++ "-" ++ "2022" ++
            ".md",
          "# Contributions - " ++ "Q2" ++ " " ++ "2022" ++ "\n\n" ++
            ("## Pull Requests" ++ t1) ++ ("## Issues" ++ t2) ++
            ("## Triaged Issues" ++ t3) ++ ("## Reviewed PRs" ++ t4))]) :=
  ⟨(renderer_bucket_files "2022-Q1" "2022" "Q1"
      (Contributions.mk [] [] [] []) (by decide)).1 rfl,
    (renderer_bucket_files "2022-Q2" "2022" "Q2"
      (Contributions.mk [] [sampleIssueItem] [] []) (by decide)).2 rfl
      (by
        intro it hit
        simp at hit
        subst hit
        exact ⟨_, rfl⟩)⟩

end OSSPortfolio
